import Mathlib

/-!
Verification of the TryLoop grading pipeline against its design document.

The development shallowly embeds the TypeScript sources:
  * the Vitest report normalizer (`toUiState`, `normalizeVitestReport`),
  * the sandbox process runner (`runCmd`) and run endpoint (`POST /api/run`),
  * the tiered hint rules engine (`gradeWithRules` and helpers),
  * the grade endpoint (`POST /api/grade`),
  * the hint budget state machine of the loop editor component
    (`showCoachControls`, `handleGetHint` guards, token and tier updates).

JavaScript values that the normalizer receives are modeled by an inductive
`Json` type; `undefined` and `null` are both modeled by `Json.null`, since
every operation the source performs treats them alike (`??`, `?.`, falsiness).
Numbers are modeled as `Int` (the code never does arithmetic on report
values, so fractional values are irrelevant to every property checked here).
Operations that can raise a JavaScript `TypeError` (iterating a non-iterable,
calling `.join`/`.forEach` on a non-array) are modeled in `Except String`.
-/

namespace TryLoop

/-- JSON-ish JavaScript values (with `Json.null` also standing for `undefined`). -/
inductive Json where
  | null
  | bool (b : Bool)
  | num (n : Int)
  | str (s : String)
  | arr (elems : List Json)
  | obj (fields : List (String × Json))

/-- Lookup of a key in an object's field list (first binding wins). -/
def findField : List (String × Json) → String → Json
  | [], _ => .null
  | (k2, v) :: rest, k => if k2 == k then v else findField rest k

/-- JavaScript property access `j[k]`: missing fields and access on
non-objects yield `undefined` (modeled as `Json.null`). -/
def getField : Json → String → Json
  | .obj fields, k => findField fields k
  | _, _ => .null

/-- JavaScript truthiness. -/
def Json.truthy : Json → Bool
  | .null => false
  | .bool b => b
  | .num n => n != 0
  | .str s => s != ""
  | .arr _ => true
  | .obj _ => true

/-- `Array.isArray`, returning the elements on success. -/
def asArray : Json → Option (List Json)
  | .arr xs => some xs
  | _ => none

mutual

/-- JavaScript `String(v)` coercion (ASCII-suffices approximation of array
joining; objects print as `[object Object]`). -/
def jsToString : Json → String
  | .null => "null"
  | .bool b => if b then "true" else "false"
  | .num n => toString n
  | .str s => s
  | .arr xs => String.intercalate "," (jsToStringElems xs)
  | .obj _ => "[object Object]"

/-- Elements as they appear in `Array.prototype.join`: `null`/`undefined`
become the empty string. -/
def jsToStringElems : List Json → List String
  | [] => []
  | .null :: t => "" :: jsToStringElems t
  | x :: t => jsToString x :: jsToStringElems t

end

/-- `Array.prototype.join` with a separator. -/
def joinElems (sep : String) (xs : List Json) : String :=
  String.intercalate sep (jsToStringElems xs)

/-- The five canonical UI test states. -/
inductive UiState where
  | pass
  | fail
  | skip
  | todo
  | unknown
deriving DecidableEq

/-- One normalized test record (`UiTest` in the source). -/
structure UiTest where
  name : String
  state : UiState
  file : Option String
  error : Option String
deriving DecidableEq

/-- `String.prototype.toLowerCase`, defined structurally over the character
list so that concrete inputs evaluate (extensionally `String.toLower`;
ASCII letters only, like `Char.toLower`, which suffices for every string
the sources compare after lowering). -/
def strToLower (s : String) : String :=
  String.mk (s.data.map Char.toLower)

/-- `toUiState` from the run route: case-insensitively map a raw
state-or-status value to one of the five canonical states,
with `String(x ?? '')` as the coercion. -/
def toUiState (x : Json) : UiState :=
  let v := strToLower (match x with | .null => "" | y => jsToString y)
  if v == "pass" || v == "passed" then .pass
  else if v == "fail" || v == "failed" then .fail
  else if v == "skip" || v == "skipped" then .skip
  else if v == "todo" then .todo
  else .unknown

theorem one_le_sizeOf_json (j : Json) : 1 ≤ sizeOf j := by
  cases j <;> simp

theorem one_le_sizeOf_jsonList (l : List Json) : 1 ≤ sizeOf l := by
  cases l with
  | nil => simp
  | cons h t => simp; omega

theorem sizeOf_findField_le (fields : List (String × Json)) (k : String) :
    sizeOf (findField fields k) ≤ sizeOf fields := by
  induction fields with
  | nil => simp [findField]
  | cons p t ih =>
    obtain ⟨k2, v⟩ := p
    simp only [findField]
    split
    · simp
      omega
    · have h2 : sizeOf t ≤ sizeOf ((k2, v) :: t) := by simp
      exact le_trans ih h2

theorem sizeOf_getField_le (j : Json) (k : String) :
    sizeOf (getField j k) ≤ sizeOf j := by
  cases j with
  | obj fields =>
    have h := sizeOf_findField_le fields k
    have h2 : sizeOf fields ≤ sizeOf (Json.obj fields) := by simp
    simp only [getField]
    exact le_trans h h2
  | null => simp [getField]
  | bool b => simp [getField]
  | num n => simp [getField]
  | str s => simp [getField]
  | arr xs => simp [getField]

/-- `file?.name` (and the like) as an optional string for a `UiTest` field. -/
def jsFieldOptStr (j : Json) (k : String) : Option String :=
  match getField j k with
  | .null => none
  | v => some (jsToString v)

/-- Shape A: `a?.state ?? a?.status` — prefer `state`, fall back to `status`. -/
def shapeARawState (a : Json) : Json :=
  match getField a "state" with
  | .null => getField a "status"
  | s => s

/-- Shape A: `a?.fullName ?? a?.title ?? 'Unnamed test'`. -/
def shapeAName (a : Json) : String :=
  match getField a "fullName" with
  | .null =>
    match getField a "title" with
    | .null => "Unnamed test"
    | t => jsToString t
  | n => jsToString n

/-- Shape A: `a?.failureMessages?.join('\n') || undefined`. A `failureMessages`
value that is neither absent nor an array has no `.join` method: calling it
raises a `TypeError`, modeled as `Except.error`. -/
def shapeAError (a : Json) : Except String (Option String) :=
  match getField a "failureMessages" with
  | .null => .ok none
  | .arr ms =>
    let s := joinElems "\n" ms
    .ok (if s == "" then none else some s)
  | _ => .error "a.failureMessages.join is not a function"

/-- One record pushed per assertion of a shape-A file. -/
def shapeARecord (fileName : Option String) (a : Json) : Except String UiTest :=
  match shapeAError a with
  | .error e => .error e
  | .ok err =>
    .ok { name := shapeAName a
          state := toUiState (shapeARawState a)
          file := fileName
          error := err }

/-- `for (const a of assertions)`: arrays iterate their elements; strings are
iterable over their characters; anything else raises a `TypeError`. -/
def iterOf : Json → Option (List Json)
  | .arr xs => some xs
  | .str s => some (s.data.map (fun c => Json.str (String.mk [c])))
  | _ => none

/-- The `for (const a of assertions)` loop of shape A, pushing one record per
assertion. -/
def shapeAAssertions (fileName : Option String) : List Json → Except String (List UiTest)
  | [] => .ok []
  | a :: rest =>
    match shapeARecord fileName a with
    | .error e => .error e
    | .ok r =>
      match shapeAAssertions fileName rest with
      | .error e => .error e
      | .ok rs => .ok (r :: rs)

/-- One shape-A file: `const assertions = file?.assertionResults ?? []`, then
the assertion loop. A non-null, non-iterable `assertionResults` makes the
`for...of` raise a `TypeError`. -/
def shapeAFile (file : Json) : Except String (List UiTest) :=
  let fileName := jsFieldOptStr file "name"
  match getField file "assertionResults" with
  | .null => .ok []
  | v =>
    match iterOf v with
    | some assertions => shapeAAssertions fileName assertions
    | none => .error "assertions is not iterable"

/-- The `for (const file of report.testResults)` loop of shape A. -/
def shapeAFiles : List Json → Except String (List UiTest)
  | [] => .ok []
  | f :: rest =>
    match shapeAFile f with
    | .error e => .error e
    | .ok l1 =>
      match shapeAFiles rest with
      | .error e => .error e
      | .ok l2 => .ok (l1 ++ l2)

/-- Shape B: `node.result?.state ?? node.state`. -/
def shapeBState (node : Json) : Json :=
  match getField (getField node "result") "state" with
  | .null => getField node "state"
  | s => s

/-- Shape B error text:
`node.result?.error?.message || (Array.isArray(node.result?.errors) ?
node.result.errors.map(e => e?.message).filter(Boolean).join('\n') :
undefined)`. -/
def shapeBError (node : Json) : Option String :=
  let msg := getField (getField (getField node "result") "error") "message"
  if msg.truthy then some (jsToString msg)
  else
    match getField (getField node "result") "errors" with
    | .arr es =>
      some (String.intercalate "\n"
        (((es.map (fun e => getField e "message")).filter Json.truthy).map jsToString))
    | _ => none

/-- The record pushed for a shape-B node with `type === 'test'`. -/
def shapeBRecord (fileName : Option String) (node : Json) : UiTest :=
  { name :=
      match getField node "name" with
      | .null => "Unnamed test"
      | n => jsToString n
    state := toUiState (shapeBState node)
    file := fileName
    error := shapeBError node }

mutual

/-- The recursive `walk` of shape B. A falsy node (`if (!node) return`) has no
`type` or `tasks` fields, so it contributes nothing, exactly as in the source;
`node.tasks.forEach(walk)` is guarded by `Array.isArray(node.tasks)`. -/
def walkNode (fileName : Option String) (node : Json) : List UiTest :=
  (match getField node "type" with
   | .str s => if s == "test" then [shapeBRecord fileName node] else []
   | _ => []) ++
  (match hts : getField node "tasks" with
   | .arr ts => walkChildren fileName ts
   | _ => [])
termination_by sizeOf node
decreasing_by
  have h := sizeOf_getField_le node "tasks"
  rw [hts] at h
  simp at h
  omega

/-- `tasks.forEach(walk)` over a list of child nodes. -/
def walkChildren (fileName : Option String) : List Json → List UiTest
  | [] => []
  | n :: t => walkNode fileName n ++ walkChildren fileName t
termination_by l => sizeOf l

end

mutual

/-- Specification-side collection of the `type === 'test'` nodes of a task
tree, in traversal order. The normalizer must emit exactly one record per
such node. -/
def testNodes (node : Json) : List Json :=
  (match getField node "type" with
   | .str s => if s == "test" then [node] else []
   | _ => []) ++
  (match hts : getField node "tasks" with
   | .arr ts => testNodesList ts
   | _ => [])
termination_by sizeOf node
decreasing_by
  have h := sizeOf_getField_le node "tasks"
  rw [hts] at h
  simp at h
  omega

/-- `testNodes` over a list of sibling task nodes. -/
def testNodesList : List Json → List Json
  | [] => []
  | n :: t => testNodes n ++ testNodesList t
termination_by l => sizeOf l

end

/-- One shape-B file: `const roots = f?.tasks ?? []; roots.forEach(walk)`.
A non-null, non-array `tasks` value has no `.forEach`: `TypeError`. -/
def shapeBFile (f : Json) : Except String (List UiTest) :=
  let fileName := jsFieldOptStr f "name"
  match getField f "tasks" with
  | .null => .ok []
  | .arr roots => .ok (walkChildren fileName roots)
  | _ => .error "roots.forEach is not a function"

/-- The `for (const f of report.files)` loop of shape B. -/
def shapeBFiles : List Json → Except String (List UiTest)
  | [] => .ok []
  | f :: rest =>
    match shapeBFile f with
    | .error e => .error e
    | .ok l1 =>
      match shapeBFiles rest with
      | .error e => .error e
      | .ok l2 => .ok (l1 ++ l2)

/-- `normalizeVitestReport` from the run route: falsy reports yield `[]`;
a report whose `testResults` is an array is treated as shape A; otherwise
one whose `files` is an array is treated as shape B; anything else yields
`[]`. JavaScript `TypeError`s surface as `Except.error`. -/
def normalizeE (report : Json) : Except String (List UiTest) :=
  if !report.truthy then .ok []
  else
    match asArray (getField report "testResults") with
    | some files => shapeAFiles files
    | none =>
      match asArray (getField report "files") with
      | some files => shapeBFiles files
      | none => .ok []

/-! ## Sandbox runner and run endpoint -/

/-- The outcome of `runCmd`: resolved exit code plus captured output. -/
structure CmdResult where
  exitCode : Int
  stdout : String
  stderr : String
deriving DecidableEq

/-- Abstract behavior of the spawned docker process: whether it finishes
before the wall-clock timeout, the exit code reported on `close` (`none`
models Node's `null` code when the process is terminated by a signal), and
the captured output. -/
structure ProcBehavior where
  finishesWithin : Bool
  closeCode : Option Int
  stdout : String
  stderr : String

/-- The `[TryLoop] Timeout after ...ms` marker appended to stderr on expiry. -/
def timeoutMarker (timeoutMs : Nat) : String :=
  "\n[TryLoop] Timeout after " ++ toString timeoutMs ++ "ms"

/-- `runCmd` from the run route. If the timer fires first, the marker is
appended to stderr and the child is killed with SIGKILL; a signal-terminated
process reports a `null` exit code on `close`, which `code ?? 1` resolves
to `1`. Otherwise `close` delivers the process's own code (`code ?? 1`). -/
def runCmd (p : ProcBehavior) (timeoutMs : Nat) : CmdResult :=
  if p.finishesWithin then
    { exitCode := p.closeCode.getD 1, stdout := p.stdout, stderr := p.stderr }
  else
    { exitCode := (1 : Int)
      stdout := p.stdout
      stderr := p.stderr ++ timeoutMarker timeoutMs }

/-- `const passed = result.exitCode === 0` from the run route. -/
def runPassed (r : CmdResult) : Bool :=
  r.exitCode == 0

/-- A request-body string field is accepted only when it is a non-empty
string (`!v || typeof v !== 'string'` rejects everything else). -/
def isNonEmptyStr : Json → Bool
  | .str s => s != ""
  | _ => false

/-- Result of the run endpoint.  `jsError` models an uncaught JavaScript
exception escaping the handler (the route has no catch around
`normalizeVitestReport`). -/
inductive RunOutcome where
  | httpError (status : Nat) (msg : String)
  | ok (passed : Bool) (stdout stderr : String) (tests : List UiTest) (report : Json)
  | jsError (msg : String)

/-- `POST /api/run`.  Inputs: the parsed request body (`none` = body was not
valid JSON), the fixed test source looked up for the loop (`none` = not
found, a 404), the behavior of the sandbox process, and the JSON parse of
the report file (`none` = file missing or unparseable, caught and left as
`null`). -/
def runPOST (body : Option Json) (testsSource : Option String)
    (proc : ProcBehavior) (reportJson : Option Json) : RunOutcome :=
  match body with
  | none => .httpError 400 "Invalid JSON body"
  | some b =>
    if !isNonEmptyStr (getField b "loopId") then
      .httpError 400 "loopId is required"
    else if !isNonEmptyStr (getField b "code") then
      .httpError 400 "code is required"
    else
      match testsSource with
      | none => .httpError 404 "Loop tests not found"
      | some _ =>
        let result := runCmd proc 8000
        let report := reportJson.getD Json.null
        let passed := result.exitCode == 0
        match normalizeE report with
        | .ok testsUi => .ok passed result.stdout result.stderr testsUi report
        | .error e => .jsError e

/-! ## String search and the rule-engine regexes -/

/-- `hay.includes(needle)` on character lists. -/
def subList (needle : List Char) : List Char → Bool
  | [] => needle.isEmpty
  | c :: t => needle.isPrefixOf (c :: t) || subList needle t

/-- JavaScript `String.prototype.includes`. -/
def jsIncludes (hay needle : String) : Bool :=
  subList needle.data hay.data

/-- A regex word character (`\w`, i.e. `[A-Za-z0-9_]`). -/
def isWordChar (c : Char) : Bool :=
  c.isAlphanum || c == '_'

/-- A regex whitespace character (`\s`, ASCII subset). -/
def isJsSpace (c : Char) : Bool :=
  c == ' ' || c == '\t' || c == '\n' || c == '\r' || c == '\x0b' || c == '\x0c'

/-- Skip `\s*`. -/
def dropSpaces : List Char → List Char
  | [] => []
  | c :: t => if isJsSpace c then dropSpaces t else c :: t

/-- Match `\s*>\s*\d+` at the head of the input. -/
def matchGtNum (cs : List Char) : Bool :=
  match dropSpaces cs with
  | '>' :: rest =>
    match dropSpaces rest with
    | d :: _ => d.isDigit
    | [] => false
  | _ => false

/-- Match `(user|u)\s*>\s*\d+` at the head of the input, with the
alternation's backtracking: try `user` first, then `u`. -/
def matchUserAlt (cs : List Char) : Bool :=
  (match cs with
   | 'u' :: 's' :: 'e' :: 'r' :: rest => matchGtNum rest
   | _ => false) ||
  (match cs with
   | 'u' :: rest => matchGtNum rest
   | _ => false)

/-- `\b` holds before the next character when the previous character is
absent or not a word character (the pattern's next character is the word
character `u`, so the other direction of the boundary is trivial). -/
def boundaryBefore : Option Char → Bool
  | none => true
  | some p => !isWordChar p

/-- Scan every starting position for `\b(user|u)\s*>\s*\d+`. -/
def scanCompare : Option Char → List Char → Bool
  | _, [] => false
  | prev, c :: t =>
    (boundaryBefore prev && matchUserAlt (c :: t)) || scanCompare (some c) t

/-- `/\b(user|u)\s*>\s*\d+/.test(code)` — the "predicate compares the whole
record to a number" detector. -/
def compareObjTest (code : String) : Bool :=
  scanCompare none code.data

/-- Match the word `return` followed by a non-word character or the end. -/
def matchReturnWord : List Char → Bool
  | 'r' :: 'e' :: 't' :: 'u' :: 'r' :: 'n' :: rest =>
    match rest with
    | [] => true
    | d :: _ => !isWordChar d
  | _ => false

/-- Scan every starting position for `\breturn\b`. -/
def scanReturn : Option Char → List Char → Bool
  | _, [] => false
  | prev, c :: t =>
    (boundaryBefore prev && matchReturnWord (c :: t)) || scanReturn (some c) t

/-- `/\breturn\b/.test(code)`. -/
def hasReturnWord (code : String) : Bool :=
  scanReturn none code.data

/-! ## The tiered hint rules engine (`gradeWithRules`) -/

/-- A failing-test record as the coach receives it (`CoachFail`). -/
structure CoachFail where
  name : String
  state : UiState
  error : Option String
deriving DecidableEq

/-- A documentation pointer (`CoachDoc`). -/
structure CoachDoc where
  label : String
  url : String
deriving DecidableEq

/-- Exercise metadata as the coach receives it (`CoachLoop`). -/
structure CoachLoop where
  id : String
  title : String
  spec : List String
  docs : Option (List CoachDoc)
deriving DecidableEq

/-- The coaching payload (`CoachResponse`).  The TypeScript type pins
`safety.no_full_solution` to the literal `true`; here it is a `Bool` field so
that the structural guarantee is provable rather than assumed. -/
structure CoachResponse where
  tier : Nat
  nudge : String
  questions : List String
  doc : CoachDoc
  microExample : Option String
  safety_no_full_solution : Bool
  safety_notes : String
deriving DecidableEq

/-- `firstDoc`: `loop.docs?.[0]`, with the MDN JavaScript entry as the
fallback when `docs` is absent or empty. -/
def firstDoc (loop : CoachLoop) : CoachDoc :=
  match loop.docs with
  | some (d :: _) => d
  | _ =>
    { label := "MDN JavaScript"
      url := "https://developer.mozilla.org/en-US/docs/Web/JavaScript" }

/-- `textFromFails`: names joined by `' | '`, a newline, then errors (missing
errors as `''`) joined by newlines, all lower-cased. -/
def textFromFails (fails : List CoachFail) : String :=
  strToLower
    (String.intercalate " | " (fails.map (fun t => t.name)) ++ "\n" ++
      String.intercalate "\n" (fails.map (fun t => t.error.getD "")))

/-- `clampTier`: `2` and `3` pass through, everything else (including an
absent tier) becomes `1`. -/
def clampTier (tier : Option Int) : Nat :=
  match tier with
  | some 2 => 2
  | some 3 => 3
  | _ => 1

/-- `gradeWithRules` from the tiered rules module.  The mutable
`nudge`/`questions`/`doc`/`microExample` locals of the source become a
selected tuple; the source's three `if (tier === k)` blocks are exclusive
because `tier` is exactly one of `1`, `2`, `3` after clamping, and each
block is an `if`/`else if` chain over the three pattern rules, first match
winning.  The final payload is assembled outside every branch, with
`microExample` spread in only when `tier === 3 && microExample` is truthy. -/
def gradeWithRules (loop : CoachLoop) (code : String)
    (failingTests : List CoachFail) (tierArg : Option Int) : CoachResponse :=
  let tier := clampTier tierArg
  let fails := failingTests.filter (fun t => t.state == UiState.fail)
  let failText := textFromFails fails
  let nudge0 :=
    "Check what your function returns vs what the spec expects, then adjust one small thing."
  let questions0 :=
    ["What is each item inside your callback (number or object)?",
     "What condition should be true for an “adult”?",
     "Are you returning the filtered array?"]
  let doc0 := firstDoc loop
  let sel : String × List String × CoachDoc × Option String :=
    if loop.id == "loop-001" then
      let doc1 :=
        match loop.docs with
        | some ds =>
          match ds.find? (fun d => jsIncludes (strToLower d.label) "filter") with
          | some d => d
          | none => doc0
        | none => doc0
      let comparingObjectToNumber := compareObjTest code
      let boundary18 :=
        jsIncludes failText "exactly 18" || jsIncludes failText "includes users"
      let missingReturn := !hasReturnWord code
      if tier == 1 then
        if comparingObjectToNumber then
          ("Your filter predicate is comparing an object to a number — you likely meant a property on the object.",
           ["Inside `filter`, what is `user` (object or number)?",
            "Which property holds the age value?"],
           doc1, none)
        else if boundary18 then
          ("This looks like a boundary case: the spec says “age >= 18”, so 18 must be included.",
           ["Are you using `>` or `>=` in your condition?"],
           doc1, none)
        else if missingReturn then
          ("Make sure your function returns the filtered array.",
           ["What does your function return right now?"],
           doc1, none)
        else (nudge0, questions0, doc1, none)
      else if tier == 2 then
        if comparingObjectToNumber then
          ("You’re filtering, but your predicate is using the whole object instead of its age. Compare the age property.",
           ["What is the shape of a user object in this loop?",
            "Which expression should your predicate evaluate (something like `<age> >= 18`)?",
            "If you log `user` inside the callback, what do you expect to see?"],
           doc1, none)
        else if boundary18 then
          ("Your predicate is probably excluding 18. Re-check the comparison operator.",
           ["If age is 18, should the predicate return true or false?",
            "Which operator includes 18: `>` or `>=`?",
            "Try a tiny mental test with `\x7b age: 18 \x7d` — what should happen?"],
           doc1, none)
        else if missingReturn then
          ("You may be filtering correctly, but not returning the result from the function.",
           ["Are you returning the result of `users.filter(...)`?",
            "What value does your function return on the first test?",
            "Does your function ever return undefined?"],
           doc1, none)
        else (nudge0, questions0, doc1, none)
      else
        if comparingObjectToNumber then
          ("Fix the predicate shape: compare a number (age) to 18, not the entire object.",
           ["Which property should the predicate read?",
            "Does the predicate return a boolean?",
            "Does your output contain the original user objects (not ages)?"],
           doc1,
           some ("Micro-example (predicate only):\n" ++
             "// user is an object, so read a property\n" ++
             "users.filter((user) => user.age >= 18)"))
        else if boundary18 then
          ("Make sure 18 is included. This is the classic off-by-one boundary.",
           ["What’s the exact condition from the spec?",
            "Which operator matches that condition?"],
           doc1,
           some ("Micro-example (comparison only):\n" ++
             "// to include 18, use >=\n" ++
             "age >= 18"))
        else if missingReturn then
          ("Return the filtered array from your function. Filtering alone isn’t enough if you don’t return it.",
           ["Where does your function return the filtered result?",
            "If you add `console.log`, what does it show for the return value?"],
           doc1,
           some ("Micro-example (return shape only):\n" ++
             "return users.filter(/* predicate */)"))
        else
          ("Focus on the predicate and boundary. The tests are telling you exactly which users should remain.",
           ["Does your predicate keep users with age 18?",
            "Are you reading `user.age` (not `user`)?",
            "Are you returning the filtered array?"],
           doc1,
           some ("Micro-example (debug step):\n" ++
             "// quick sanity check\n" ++
             "// does your predicate return true for \x7b age: 18 \x7d?"))
    else (nudge0, questions0, doc0, none)
  let maxQuestions := if tier == 1 then 2 else if tier == 2 then 3 else 3
  { tier := tier
    nudge := sel.1
    questions := sel.2.1.take maxQuestions
    doc := sel.2.2.1
    microExample :=
      match sel.2.2.2 with
      | some s => if tier == 3 && !(s == "") then some s else none
      | none => none
    safety_no_full_solution := true
    safety_notes := "rules-engine:tiered" }

/-! ## The grade endpoint -/

/-- The grade request body after JSON parsing, decoded at the boundary.
The client (`LoopEditor.handleGetHint`) sends `tier` in the body; the
route's `GradeBody` type and destructuring have no `tier` field. -/
structure GradeBody where
  loopId : String
  code : String
  failingTests : Option (List CoachFail)
  tier : Option Int
deriving DecidableEq

/-- Result of the grade endpoint. -/
inductive GradeOutcome where
  | httpError (status : Nat) (msg : String)
  | ok (payload : CoachResponse)
deriving DecidableEq

/-- `POST /api/grade`.  Inputs: the parsed body (`none` = invalid JSON;
`failingTests = none` models a non-array value) and the loop metadata read
from `loop.json` (`none` = missing or unparseable, a 404).  The route
destructures only `loopId`, `code` and `failingTests` from the body and
calls `gradeWithRules` with exactly those: the body's `tier` is never
forwarded. -/
def gradePOST (body : Option GradeBody) (loopFile : Option CoachLoop) : GradeOutcome :=
  match body with
  | none => .httpError 400 "Invalid JSON body"
  | some b =>
    if b.loopId == "" then .httpError 400 "loopId is required"
    else if b.code == "" then .httpError 400 "code is required"
    else
      match b.failingTests with
      | none => .httpError 400 "failingTests must be an array"
      | some fts =>
        match loopFile with
        | none => .httpError 404 "Loop not found"
        | some loop => .ok (gradeWithRules loop b.code fts none)

/-! ## The loop editor's hint budget state machine

The per-exercise hint budget controller lives in `LoopEditor`:
`hintsLeft`/`tierUsed` React state (persisted per loop), the
`showCoachControls` gate, the guards at the top of `handleGetHint`
(the authoritative reveal check), the token/tier update on a successful
reveal, and `handleRunTests`, which resets only the displayed coach output.
`hintsLeft` and `tierUsed` are JavaScript numbers restored from storage, so
they are modeled as unconstrained `Int`s. -/

/-- The run result as the editor stores it. -/
structure RunResponseE where
  passed : Bool
  tests : List UiTest
deriving DecidableEq

/-- The editor state relevant to hint gating. -/
structure CoachState where
  hintsLeft : Int
  tierUsed : Int
  result : Option RunResponseE
deriving DecidableEq

/-- `maxTier = Math.min(3, hintBudget || 0)`. -/
def maxTier (hintBudget : Nat) : Int :=
  min 3 (hintBudget : Int)

/-- `nextTier = Math.min(maxTier, tierUsed + 1)`. -/
def nextTier (hintBudget : Nat) (st : CoachState) : Int :=
  min (maxTier hintBudget) (st.tierUsed + 1)

/-- `failingTests = tests.filter(t => t.state === 'fail')` where
`tests = result?.tests ?? []`. -/
def editorFailingTests (st : CoachState) : List UiTest :=
  (match st.result with
   | some r => r.tests
   | none => []).filter (fun t => t.state == UiState.fail)

/-- `showCoachControls = hintBudget > 0 && !!result && !result.passed &&
failingTests.length > 0`. -/
def showCoachControls (hintBudget : Nat) (st : CoachState) : Bool :=
  decide (0 < hintBudget) &&
  st.result.isSome &&
  (match st.result with
   | some r => !r.passed
   | none => false) &&
  decide (0 < (editorFailingTests st).length)

/-- The early-return guards of `handleGetHint`; a reveal proceeds (and only
then calls the grade endpoint) exactly when every guard passes. -/
def revealPermitted (hintBudget : Nat) (st : CoachState) : Bool :=
  showCoachControls hintBudget st &&
  (match st.result with
   | some r => !r.passed
   | none => false) &&
  decide (0 < (editorFailingTests st).length) &&
  !decide (st.hintsLeft ≤ 0) &&
  !decide (maxTier hintBudget ≤ st.tierUsed)

/-- The state update of a successful reveal:
`setTierUsed(nextTier); setHintsLeft(h => Math.max(0, h - 1))`. -/
def applyReveal (hintBudget : Nat) (st : CoachState) : CoachState :=
  { st with
    tierUsed := nextTier hintBudget st
    hintsLeft := max 0 (st.hintsLeft - 1) }

/-- `handleRunTests` stores the new run result (or clears it on a runner
error) and resets only the displayed coach output — it never touches
`hintsLeft` or `tierUsed`. -/
def runTests (st : CoachState) (newResult : Option RunResponseE) : CoachState :=
  { st with result := newResult }

/-- First-access state for a loop with the given budget:
`hintsLeft = hintBudget, tierUsed = 0`, no run yet. -/
def initState (hintBudget : Nat) : CoachState :=
  { hintsLeft := (hintBudget : Int), tierUsed := 0, result := none }

/-! ## Shared helper lemmas -/

theorem subList_append_right (needle xs ys : List Char) (h : subList needle ys = true) :
    subList needle (xs ++ ys) = true := by
  induction xs with
  | nil => simpa using h
  | cons c t ih =>
    simp only [List.cons_append, subList, Bool.or_eq_true]
    exact Or.inr ih

theorem jsIncludes_append_right (s m sub : String) (h : jsIncludes m sub = true) :
    jsIncludes (s ++ m) sub = true := by
  unfold jsIncludes at h ⊢
  have hd : (s ++ m).data = s.data ++ m.data := rfl
  rw [hd]
  exact subList_append_right _ _ _ h

theorem append_ne_empty_of_right (s m : String) (h : m ≠ "") : s ++ m ≠ "" := by
  intro he
  apply h
  have hl := congrArg String.length he
  rw [String.length_append] at hl
  have : m.length = 0 := by
    have h0 : ("" : String).length = 0 := rfl
    omega
  cases m with
  | mk data =>
    cases data with
    | nil => rfl
    | cons c t => simp [String.length, List.length] at this

/-! ## Claim C8: timeout runs -/

/-- C8: a sandbox run that exceeds the wall-clock timeout is reported as a
failed run: `passed` (the route's `exitCode === 0` verdict) is `false` —
the killed process's `null` close code resolves to `1`, never the
`0`-success — and the captured stderr is non-empty and contains the
timeout marker appended at expiry. -/
theorem c8_timeout_failed_run (p : ProcBehavior) (h : p.finishesWithin = false) :
    runPassed (runCmd p 8000) = false ∧
    (runCmd p 8000).stderr ≠ "" ∧
    jsIncludes (runCmd p 8000).stderr "[TryLoop] Timeout" = true := by
  have hr : runCmd p 8000 =
      { exitCode := (1 : Int)
        stdout := p.stdout
        stderr := p.stderr ++ timeoutMarker 8000 } := by
    simp [runCmd, h]
  refine ⟨?_, ?_, ?_⟩
  · rw [hr]; rfl
  · rw [hr]
    exact append_ne_empty_of_right _ _ (by decide)
  · rw [hr]
    exact jsIncludes_append_right _ _ _ (by decide)

/-- C8 witness: a process that does not finish within the timeout. -/
theorem c8_timeout_failed_run_w :
    runPassed (runCmd ⟨false, none, "", ""⟩ 8000) = false ∧
    (runCmd ⟨false, none, "", ""⟩ 8000).stderr ≠ "" ∧
    jsIncludes (runCmd ⟨false, none, "", ""⟩ 8000).stderr "[TryLoop] Timeout" = true :=
  c8_timeout_failed_run ⟨false, none, "", ""⟩ rfl

/-! ## Claim C7: the exit code is the sole pass/fail signal -/

/-- C7: for a valid request whose report file is missing or unparseable
(`reportJson = none`, left as `null` by the route's catch), the run endpoint
still answers with a result whose `passed` is exactly `exitCode == 0` and
whose test list is empty; in particular a non-zero exit code yields
`passed = false` and `tests = []`.  Moreover, for every report parse result,
whenever the endpoint answers `ok`, the `passed` flag equals
`exitCode == 0` — the report is never consulted for the verdict. -/
theorem c7_exit_code_verdict (b : Json) (ts : String) (proc : ProcBehavior)
    (h1 : isNonEmptyStr (getField b "loopId") = true)
    (h2 : isNonEmptyStr (getField b "code") = true) :
    (runPOST (some b) (some ts) proc none =
      .ok ((runCmd proc 8000).exitCode == 0)
        (runCmd proc 8000).stdout (runCmd proc 8000).stderr [] Json.null) ∧
    ((runCmd proc 8000).exitCode ≠ 0 →
      runPOST (some b) (some ts) proc none =
        .ok false (runCmd proc 8000).stdout (runCmd proc 8000).stderr [] Json.null) ∧
    (∀ (rj : Option Json) (passed : Bool) (so se : String) (l : List UiTest) (rp : Json),
      runPOST (some b) (some ts) proc rj = .ok passed so se l rp →
      passed = ((runCmd proc 8000).exitCode == 0)) := by
  have hexp : ∀ (rj : Option Json), runPOST (some b) (some ts) proc rj =
      (match normalizeE (rj.getD Json.null) with
       | .ok testsUi =>
         RunOutcome.ok ((runCmd proc 8000).exitCode == 0)
           (runCmd proc 8000).stdout (runCmd proc 8000).stderr testsUi (rj.getD Json.null)
       | .error e => RunOutcome.jsError e) := by
    intro rj
    simp [runPOST, h1, h2]
  refine ⟨?_, ?_, ?_⟩
  · rw [hexp none]
    rfl
  · intro hz
    have hb : ((runCmd proc 8000).exitCode == 0) = false := by
      simpa using hz
    rw [hexp none, hb]
    rfl
  · intro rj passed so se l rp hok
    rw [hexp rj] at hok
    cases hn : normalizeE (rj.getD Json.null) with
    | ok recs =>
      rw [hn] at hok
      cases hok
      rfl
    | error e =>
      rw [hn] at hok
      cases hok

/-- C7 witness: concrete valid request, failing process, missing report. -/
theorem c7_exit_code_verdict_w :
    runPOST (some (Json.obj [("loopId", Json.str "loop-001"), ("code", Json.str "x")]))
        (some "tests") ⟨true, some 1, "out", "err"⟩ none =
      .ok false "out" "err" [] Json.null :=
  ((c7_exit_code_verdict
      (Json.obj [("loopId", Json.str "loop-001"), ("code", Json.str "x")])
      "tests" ⟨true, some 1, "out", "err"⟩ rfl rfl).2.1 (by decide))

/-! ## Claim C2: reveals spend exactly one token and one tier step -/

/-- A failing test record for concrete states. -/
def tFail : UiTest :=
  { name := "t", state := .fail, file := none, error := none }

/-- A failed run holding one failing test. -/
def rFail : RunResponseE :=
  { passed := false, tests := [tFail] }

/-- Budget-3 state after a failed run, before any reveal. -/
def b3s0 : CoachState :=
  { hintsLeft := 3, tierUsed := 0, result := some rFail }

/-- After the first reveal. -/
def b3s1 : CoachState := applyReveal 3 b3s0

/-- After the second reveal. -/
def b3s2 : CoachState := applyReveal 3 b3s1

/-- After the third reveal. -/
def b3s3 : CoachState := applyReveal 3 b3s2

/-- C2: whenever a reveal is permitted, applying it decrements the remaining
tokens by exactly 1 (the `Math.max(0, ...)` floor never bites, since
permission requires a positive count) and raises the unlocked tier by
exactly 1 (`nextTier = tierUsed + 1` whenever `tierUsed < maxTier`);
re-running tests changes neither tokens nor tier; and from budget 3 the
three successive reveals produce tiers `1,2,3` and tokens `2,1,0`,
with a fourth reveal refused. -/
theorem c2_reveal_spends_token :
    (∀ (b : Nat) (st : CoachState), revealPermitted b st = true →
      (applyReveal b st).hintsLeft = st.hintsLeft - 1 ∧
      (applyReveal b st).tierUsed = st.tierUsed + 1) ∧
    (∀ (st : CoachState) (r : Option RunResponseE),
      (runTests st r).hintsLeft = st.hintsLeft ∧
      (runTests st r).tierUsed = st.tierUsed) ∧
    (b3s1.tierUsed = 1 ∧ b3s1.hintsLeft = 2 ∧
     b3s2.tierUsed = 2 ∧ b3s2.hintsLeft = 1 ∧
     b3s3.tierUsed = 3 ∧ b3s3.hintsLeft = 0 ∧
     revealPermitted 3 b3s0 = true ∧
     revealPermitted 3 b3s1 = true ∧
     revealPermitted 3 b3s2 = true ∧
     revealPermitted 3 b3s3 = false) := by
  refine ⟨?_, ?_, by decide⟩
  · intro b st hp
    simp only [revealPermitted, Bool.and_eq_true,
      decide_eq_true_eq, Bool.not_eq_true', decide_eq_false_iff_not] at hp
    obtain ⟨⟨⟨⟨_, _⟩, _⟩, hTok⟩, hTier⟩ := hp
    constructor
    · simp only [applyReveal]
      exact max_eq_right (by omega)
    · simp only [applyReveal, nextTier]
      exact min_eq_right (by omega)
  · intro st r
    exact ⟨rfl, rfl⟩

/-- C2 witness: the permitted reveal at the concrete budget-3 start state. -/
theorem c2_reveal_spends_token_w :
    (applyReveal 3 b3s0).hintsLeft = b3s0.hintsLeft - 1 ∧
    (applyReveal 3 b3s0).tierUsed = b3s0.tierUsed + 1 :=
  c2_reveal_spends_token.1 3 b3s0 (by decide)

/-! ## Claim C1: the reveal gate -/

/-- A state in which the claim's four conditions hold but the most recent
run's overall verdict is `passed = true` (the run exit code, not the test
list, decides `passed`, so this state is expressible): one failing test,
a token left, tier 0, budget 3. -/
def passedButFailingState : CoachState :=
  { hintsLeft := 1
    tierUsed := 0
    result := some { passed := true, tests := [tFail] } }

/-- C1 counterexample: with budget 3 at `passedButFailingState`, all four of
the claim's conditions hold — positive budget, a `fail`-state test from the
most recent run, positive tokens, tier strictly below `maxTier` — yet the
editor's reveal gate (`showCoachControls` plus the `handleGetHint` guards)
refuses the reveal, because it additionally requires `!result.passed`.
So "permitted iff the four conditions hold" is false on the code. -/
theorem c1_canReveal_cex :
    0 < 3 ∧
    0 < (editorFailingTests passedButFailingState).length ∧
    0 < passedButFailingState.hintsLeft ∧
    passedButFailingState.tierUsed < maxTier 3 ∧
    revealPermitted 3 passedButFailingState = false := by
  decide

/-- C1 amended: a hint reveal is permitted if and only if all of these hold:
the exercise's hint budget is positive, the most recent run is present with
an overall failed verdict (`result.passed = false`), at least one test from
that run is in the `fail` state, the remaining token count is positive, and
the highest tier unlocked is strictly below `maxTier = min(3, budget)`.
(The original claim omitted the failed-verdict condition.)  In particular,
for budget 0 a reveal is never permitted. -/
theorem c1_canReveal_iff :
    (∀ (hintBudget : Nat) (st : CoachState),
      revealPermitted hintBudget st = true ↔
        (0 < hintBudget ∧
         (∃ rr, st.result = some rr ∧ rr.passed = false) ∧
         0 < (editorFailingTests st).length ∧
         0 < st.hintsLeft ∧
         st.tierUsed < maxTier hintBudget)) ∧
    (∀ st : CoachState, revealPermitted 0 st = false) := by
  have hiff : ∀ (hintBudget : Nat) (st : CoachState),
      revealPermitted hintBudget st = true ↔
        (0 < hintBudget ∧
         (∃ rr, st.result = some rr ∧ rr.passed = false) ∧
         0 < (editorFailingTests st).length ∧
         0 < st.hintsLeft ∧
         st.tierUsed < maxTier hintBudget) := by
    intro hintBudget st
    obtain ⟨h, t, r⟩ := st
    cases r with
    | none =>
      simp [revealPermitted, showCoachControls]
    | some rr =>
      simp only [revealPermitted, showCoachControls, Bool.and_eq_true,
        decide_eq_true_eq, Bool.not_eq_true', decide_eq_false_iff_not,
        Option.isSome_some, Option.some.injEq, Bool.not_eq_true, not_le]
      constructor
      · intro hL
        exact ⟨hL.1.1.1.1.1.1.1, ⟨rr, rfl, hL.1.1.1.1.1.2⟩, hL.1.1.1.1.2, hL.1.2, hL.2⟩
      · rintro ⟨hb, ⟨rr2, heq, hpf⟩, hlen, hTok, hTier⟩
        cases heq
        exact ⟨⟨⟨⟨⟨⟨⟨hb, trivial⟩, hpf⟩, hlen⟩, hpf⟩, hlen⟩, hTok⟩, hTier⟩
  refine ⟨hiff, ?_⟩
  intro st
  by_contra hc
  have := (hiff 0 st).mp (by
    cases hrp : revealPermitted 0 st
    · exact absurd hrp hc
    · rfl)
  omega

/-- C1 witness: a budget-3 state with a failed run, one failing test, three
tokens and tier 0 satisfies the amended right-hand side, and the gate indeed
permits the reveal. -/
theorem c1_canReveal_iff_w :
    0 < 3 ∧
    (∃ rr, b3s0.result = some rr ∧ rr.passed = false) ∧
    0 < (editorFailingTests b3s0).length ∧
    0 < b3s0.hintsLeft ∧
    b3s0.tierUsed < maxTier 3 :=
  (c1_canReveal_iff.1 3 b3s0).mp (by decide)

/-! ## Claim C3: the grade endpoint drops the requested tier -/

/-- The loop-001 metadata as the grade route would decode it. -/
def loop001 : CoachLoop :=
  { id := "loop-001"
    title := "Filter adults"
    spec := []
    docs := some [{ label := "Array.prototype.filter", url := "https://developer.mozilla.org/en-US/docs/Web/JavaScript/Reference/Global_Objects/Array/filter" }] }

/-- A failing test whose name carries the off-by-one boundary phrases. -/
def boundaryFail : CoachFail :=
  { name := "includes users who are exactly 18", state := .fail, error := none }

/-- A valid grade request that carries `tier: 2`
(as `LoopEditor.handleGetHint` sends). -/
def gradeBodyTier2 : GradeBody :=
  { loopId := "loop-001"
    code := "const f = (u) => u > 18"
    failingTests := some [boundaryFail]
    tier := some 2 }

/-- C3: the grade route never forwards the request's `tier` to the rules
engine (`GradeBody` has no `tier` field and the call site passes only
`loop`, `code`, `failingTests`), so `clampTier` sees an absent tier and the
returned payload's tier is `1` — not the clamp of the requested tier, which
for this request is `2`.  The engine itself clamps correctly
(`clampTier 2 = 2`, `clampTier 3 = 3`, out-of-range and absent default
to `1`); the defect is the dropped field at the endpoint. -/
theorem c3_grade_route_drops_tier :
    gradePOST (some gradeBodyTier2) (some loop001) =
      .ok (gradeWithRules loop001 gradeBodyTier2.code [boundaryFail] none) ∧
    (gradeWithRules loop001 gradeBodyTier2.code [boundaryFail] none).tier = 1 ∧
    clampTier gradeBodyTier2.tier = 2 ∧
    (gradeWithRules loop001 gradeBodyTier2.code [boundaryFail] none).tier ≠
      clampTier gradeBodyTier2.tier ∧
    clampTier (some 2) = 2 ∧ clampTier (some 3) = 3 ∧
    clampTier (some 0) = 1 ∧ clampTier (some 7) = 1 ∧ clampTier none = 1 := by
  refine ⟨rfl, rfl, rfl, by decide, rfl, rfl, rfl, rfl, rfl⟩

/-! ## Claim C4: safety flag and tier-3-only micro-example -/

/-- C4: on every execution path the rules engine's payload carries
`safety.no_full_solution = true` — the payload is assembled once, outside
all rule branches, with the flag set structurally — and the `microExample`
field is populated only when the clamped tier is 3. -/
theorem c4_safety_structural (loop : CoachLoop) (code : String)
    (fails : List CoachFail) (t : Option Int) :
    (gradeWithRules loop code fails t).safety_no_full_solution = true ∧
    ((gradeWithRules loop code fails t).microExample ≠ none → clampTier t = 3) := by
  constructor
  · rfl
  · intro hm
    by_contra hne
    apply hm
    have h3 : (clampTier t == 3) = false := by
      simpa using hne
    show (gradeWithRules loop code fails t).microExample = none
    simp only [gradeWithRules, h3, Bool.false_and]
    generalize (if loop.id == "loop-001" then _ else _ :
      String × List String × CoachDoc × Option String) = sel
    cases hs : sel.2.2.2 <;> simp [hs]

/-- C4 witness: at loop-001, tier 3, the micro-example is present and the
clamped tier is indeed 3. -/
theorem c4_safety_structural_w : clampTier (some 3) = 3 :=
  (c4_safety_structural loop001 "x" [] (some 3)).2 (by decide)

/-! ## Claim C10: only `fail`-state records matter to the engine -/

/-- C10: the rules engine first filters its `failingTests` argument down to
the records with `state === 'fail'`; every later computation (the searchable
text blob and each rule) reads only that filtered list, so two inputs with
identical `fail`-state records yield identical payloads whatever their
other records are. -/
theorem c10_fail_records_determine_payload (loop : CoachLoop) (code : String)
    (t : Option Int) (l1 l2 : List CoachFail)
    (h : l1.filter (fun r => r.state == UiState.fail) =
         l2.filter (fun r => r.state == UiState.fail)) :
    gradeWithRules loop code l1 t = gradeWithRules loop code l2 t := by
  simp only [gradeWithRules]
  rw [h]

/-- C10 witness: adding a `pass`-state record changes nothing. -/
theorem c10_fail_records_determine_payload_w :
    gradeWithRules loop001 "const f = (u) => u > 18" [boundaryFail] (some 1) =
      gradeWithRules loop001 "const f = (u) => u > 18"
        [boundaryFail, { name := "other", state := .pass, error := none }] (some 1) :=
  c10_fail_records_determine_payload loop001 "const f = (u) => u > 18"
    (some 1) [boundaryFail] [boundaryFail, { name := "other", state := .pass, error := none }]
    (by decide)

/-! ## Claim C6: normalize on absent and unrecognized input -/

/-- A report that matches shape A's discriminator (`testResults` is an
array) but whose file entry carries a non-iterable `assertionResults`. -/
def badAssertionsReport : Json :=
  .obj [("testResults", .arr [.obj [("assertionResults", .num 1)]])]

/-- C6 counterexample: `normalize` is not total.  On
`{testResults: [{assertionResults: 1}]}` the source computes
`const assertions = file?.assertionResults ?? []` = `1` and then runs
`for (const a of assertions)`, which raises
`TypeError: assertions is not iterable` — so "normalize never throws for
any input" is false. -/
theorem c6_normalize_total_cex :
    normalizeE badAssertionsReport = .error "assertions is not iterable" := by
  rfl

/-- C6 amended: `normalize(undefined) == []` and `normalize({}) == []`, and
`normalize` never throws when the report is absent or matches neither shape
(neither `testResults` nor `files` is an array); within a recognized shape,
however, a non-array value in an iterated position (`assertionResults`,
`tasks`, `failureMessages`) raises a `TypeError`, so totality holds only
there. -/
theorem c6_normalize_empty_on_unrecognized :
    normalizeE Json.null = .ok [] ∧
    normalizeE (Json.obj []) = .ok [] ∧
    (∀ report : Json,
      asArray (getField report "testResults") = none →
      asArray (getField report "files") = none →
      normalizeE report = .ok []) := by
  refine ⟨rfl, rfl, ?_⟩
  intro report h1 h2
  cases ht : report.truthy <;> simp [normalizeE, h1, h2, ht]

/-- C6 witness: a truthy non-object report matches neither shape and
normalizes to the empty list. -/
theorem c6_normalize_empty_on_unrecognized_w :
    normalizeE (Json.num 5) = .ok [] :=
  c6_normalize_empty_on_unrecognized.2.2 (Json.num 5) rfl rfl

/-! ## Claim C9: first-match rule selection -/

/-- The learner submission of the end-to-end scenario: the predicate
compares the whole record to a number and contains no `return` keyword. -/
def scenarioCode : String :=
  "export const onlyAdults = (users) => users.filter((u) => u > 18)"

/-- C9: for loop-001, rule selection is first-match in the fixed priority
order (object-compared-to-number, then boundary-18, then missing-return) at
every tier, and the baseline content applies only when no rule matches.
In particular — the end-to-end scenario — when the code matches the
compare-whole-record-to-a-number pattern and the failing-test text also
contains the off-by-one boundary phrases, the tier-1 payload carries the
comparison-specific nudge, never the missing-return fallback. -/
theorem c9_first_match_priority (loop : CoachLoop) (code : String)
    (fails : List CoachFail) (hid : loop.id = "loop-001") :
    (compareObjTest code = true →
      (gradeWithRules loop code fails (some 1)).nudge =
        "Your filter predicate is comparing an object to a number — you likely meant a property on the object." ∧
      (gradeWithRules loop code fails (some 2)).nudge =
        "You’re filtering, but your predicate is using the whole object instead of its age. Compare the age property." ∧
      (gradeWithRules loop code fails (some 3)).nudge =
        "Fix the predicate shape: compare a number (age) to 18, not the entire object.") ∧
    (compareObjTest code = false →
      (jsIncludes (textFromFails (fails.filter (fun t => t.state == UiState.fail))) "exactly 18" ||
       jsIncludes (textFromFails (fails.filter (fun t => t.state == UiState.fail))) "includes users") = true →
      (gradeWithRules loop code fails (some 1)).nudge =
        "This looks like a boundary case: the spec says “age >= 18”, so 18 must be included." ∧
      (gradeWithRules loop code fails (some 2)).nudge =
        "Your predicate is probably excluding 18. Re-check the comparison operator." ∧
      (gradeWithRules loop code fails (some 3)).nudge =
        "Make sure 18 is included. This is the classic off-by-one boundary.") ∧
    (compareObjTest code = false →
      (jsIncludes (textFromFails (fails.filter (fun t => t.state == UiState.fail))) "exactly 18" ||
       jsIncludes (textFromFails (fails.filter (fun t => t.state == UiState.fail))) "includes users") = false →
      hasReturnWord code = false →
      (gradeWithRules loop code fails (some 1)).nudge =
        "Make sure your function returns the filtered array." ∧
      (gradeWithRules loop code fails (some 2)).nudge =
        "You may be filtering correctly, but not returning the result from the function." ∧
      (gradeWithRules loop code fails (some 3)).nudge =
        "Return the filtered array from your function. Filtering alone isn’t enough if you don’t return it.") ∧
    (compareObjTest code = false →
      (jsIncludes (textFromFails (fails.filter (fun t => t.state == UiState.fail))) "exactly 18" ||
       jsIncludes (textFromFails (fails.filter (fun t => t.state == UiState.fail))) "includes users") = false →
      hasReturnWord code = true →
      (gradeWithRules loop code fails (some 1)).nudge =
        "Check what your function returns vs what the spec expects, then adjust one small thing." ∧
      (gradeWithRules loop code fails (some 2)).nudge =
        "Check what your function returns vs what the spec expects, then adjust one small thing." ∧
      (gradeWithRules loop code fails (some 3)).nudge =
        "Focus on the predicate and boundary. The tests are telling you exactly which users should remain.") ∧
    ((gradeWithRules loop001 scenarioCode [boundaryFail] (some 1)).nudge =
        "Your filter predicate is comparing an object to a number — you likely meant a property on the object." ∧
      compareObjTest scenarioCode = true ∧
      jsIncludes (textFromFails [boundaryFail]) "exactly 18" = true ∧
      hasReturnWord scenarioCode = false ∧
      (gradeWithRules loop001 scenarioCode [boundaryFail] (some 1)).nudge ≠
        "Make sure your function returns the filtered array.") := by
  refine ⟨?_, ?_, ?_, ?_, by decide⟩
  · intro hcmp
    refine ⟨?_, ?_, ?_⟩ <;>
      simp [gradeWithRules, hid, hcmp, clampTier]
  · intro hcmp hbnd
    refine ⟨?_, ?_, ?_⟩ <;>
      simp [gradeWithRules, hid, hcmp, hbnd, clampTier]
  · intro hcmp hbnd hret
    refine ⟨?_, ?_, ?_⟩ <;>
      simp [gradeWithRules, hid, hcmp, hbnd, hret, clampTier]
  · intro hcmp hbnd hret
    refine ⟨?_, ?_, ?_⟩ <;>
      simp [gradeWithRules, hid, hcmp, hbnd, hret, clampTier]

/-- C9 witness: the scenario inputs discharge the first-match hypotheses of
the compare rule. -/
theorem c9_first_match_priority_w :
    (gradeWithRules loop001 scenarioCode [boundaryFail] (some 1)).nudge =
      "Your filter predicate is comparing an object to a number — you likely meant a property on the object." ∧
    (gradeWithRules loop001 scenarioCode [boundaryFail] (some 2)).nudge =
      "You’re filtering, but your predicate is using the whole object instead of its age. Compare the age property." ∧
    (gradeWithRules loop001 scenarioCode [boundaryFail] (some 3)).nudge =
      "Fix the predicate shape: compare a number (age) to 18, not the entire object." :=
  (c9_first_match_priority loop001 scenarioCode [boundaryFail] rfl).1 (by decide)

/-! ## Claim C5: one record per leaf, canonical states -/

/-- Specification-side count of shape-A leaf assertions: the total number of
`assertionResults` entries across the report's files. -/
def shapeACount (files : List Json) : Nat :=
  (files.map (fun f =>
    match getField f "assertionResults" with
    | .arr as => as.length
    | _ => 0)).sum

/-- Specification-side list of the raw state-or-status values of a shape-A
report, in order. -/
def shapeARawStates (files : List Json) : List Json :=
  (files.map (fun f =>
    match getField f "assertionResults" with
    | .arr as => as.map shapeARawState
    | _ => [])).flatten

/-- A shape-A assertion is well-formed when its `failureMessages`, if
present, is an array (anything else makes the source throw). -/
def wfAssertion (a : Json) : Bool :=
  match getField a "failureMessages" with
  | .null => true
  | .arr _ => true
  | _ => false

/-- A shape-A file entry is well-formed when its `assertionResults` is
absent or an array of well-formed assertions. -/
def wfAFile (f : Json) : Bool :=
  match getField f "assertionResults" with
  | .null => true
  | .arr as => as.all wfAssertion
  | _ => false

/-- Well-formedness of a shape-A file list. -/
def wfA (files : List Json) : Bool :=
  files.all wfAFile

/-- Specification-side list of the `type === 'test'` nodes of a shape-B
report, in traversal order. -/
def shapeBTestNodes (files : List Json) : List Json :=
  (files.map (fun f =>
    match getField f "tasks" with
    | .arr ts => testNodesList ts
    | _ => [])).flatten

/-- A shape-B file entry is well-formed when its `tasks` is absent or an
array (anything else makes the source's `.forEach` throw; nested `tasks`
values are guarded by `Array.isArray` and need no condition). -/
def wfBFile (f : Json) : Bool :=
  match getField f "tasks" with
  | .null => true
  | .arr _ => true
  | _ => false

/-- Well-formedness of a shape-B file list. -/
def wfB (files : List Json) : Bool :=
  files.all wfBFile

theorem truthy_of_getField_arr (j : Json) (k : String) (l : List Json)
    (h : getField j k = Json.arr l) : j.truthy = true := by
  cases j with
  | obj fields => rfl
  | null => simp [getField] at h
  | bool b => simp [getField] at h
  | num n => simp [getField] at h
  | str s => simp [getField] at h
  | arr xs => simp [getField] at h

theorem shapeAAssertions_spec (fn : Option String) (as : List Json)
    (hwf : as.all wfAssertion = true) :
    ∃ l, shapeAAssertions fn as = .ok l ∧ l.length = as.length ∧
      l.map (fun r => r.state) = as.map (fun a => toUiState (shapeARawState a)) := by
  induction as with
  | nil => exact ⟨[], rfl, rfl, rfl⟩
  | cons a rest ih =>
    simp only [List.all_cons, Bool.and_eq_true] at hwf
    obtain ⟨hwa, hwrest⟩ := hwf
    obtain ⟨l, hok, hlen, hst⟩ := ih hwrest
    have hrec : ∃ err, shapeARecord fn a =
        .ok { name := shapeAName a
              state := toUiState (shapeARawState a)
              file := fn
              error := err } := by
      unfold wfAssertion at hwa
      cases hfm : getField a "failureMessages" with
      | null => exact ⟨none, by simp [shapeARecord, shapeAError, hfm]⟩
      | arr ms =>
        refine ⟨if joinElems "\n" ms == "" then none else some (joinElems "\n" ms), ?_⟩
        simp [shapeARecord, shapeAError, hfm]
      | bool b => rw [hfm] at hwa; simp at hwa
      | num n => rw [hfm] at hwa; simp at hwa
      | str s => rw [hfm] at hwa; simp at hwa
      | obj fs => rw [hfm] at hwa; simp at hwa
    obtain ⟨err, hrec⟩ := hrec
    refine ⟨{ name := shapeAName a
              state := toUiState (shapeARawState a)
              file := fn
              error := err } :: l, ?_, by simp [hlen], by simp [hst]⟩
    simp [shapeAAssertions, hrec, hok]

theorem shapeAFiles_spec (files : List Json) (hwf : wfA files = true) :
    ∃ l, shapeAFiles files = .ok l ∧ l.length = shapeACount files ∧
      l.map (fun r => r.state) = (shapeARawStates files).map toUiState := by
  induction files with
  | nil => exact ⟨[], rfl, rfl, rfl⟩
  | cons f rest ih =>
    simp only [wfA, List.all_cons, Bool.and_eq_true] at hwf
    obtain ⟨hwf1, hwfr⟩ := hwf
    obtain ⟨l2, hok2, hlen2, hst2⟩ := ih hwfr
    unfold wfAFile at hwf1
    cases har : getField f "assertionResults" with
    | null =>
      refine ⟨l2, ?_, ?_, ?_⟩
      · simp [shapeAFiles, shapeAFile, har, hok2]
      · simpa [shapeACount, har] using hlen2
      · simpa [shapeARawStates, har] using hst2
    | arr as =>
      rw [har] at hwf1
      obtain ⟨l1, hok1, hlen1, hst1⟩ := shapeAAssertions_spec (jsFieldOptStr f "name") as hwf1
      refine ⟨l1 ++ l2, ?_, ?_, ?_⟩
      · simp [shapeAFiles, shapeAFile, har, iterOf, hok1, hok2]
      · simp [shapeACount, har, hlen1, hlen2]
      · rw [List.map_append, hst1, hst2]
        simp [shapeARawStates, har]
    | bool b => rw [har] at hwf1; simp at hwf1
    | num n => rw [har] at hwf1; simp at hwf1
    | str s => rw [har] at hwf1; simp at hwf1
    | obj fs => rw [har] at hwf1; simp at hwf1

theorem walk_spec_aux (N : Nat) :
    (∀ (node : Json) (fn : Option String), sizeOf node ≤ N →
      walkNode fn node = (testNodes node).map (shapeBRecord fn)) ∧
    (∀ (l : List Json) (fn : Option String), sizeOf l ≤ N →
      walkChildren fn l = (testNodesList l).map (shapeBRecord fn)) := by
  induction N with
  | zero =>
    constructor
    · intro node fn hs
      exact absurd hs (by have := one_le_sizeOf_json node; omega)
    · intro l fn hs
      exact absurd hs (by have := one_le_sizeOf_jsonList l; omega)
  | succ N ih =>
    constructor
    · intro node fn hs
      unfold walkNode testNodes
      rw [List.map_append]
      congr 1
      · cases hty : getField node "type" with
        | str s =>
          by_cases hst : s == "test"
          · simp [hst]
          · simp [hst]
        | null => rfl
        | bool b => rfl
        | num n => rfl
        | arr xs => rfl
        | obj fs => rfl
      · cases hts : getField node "tasks" with
        | arr ts =>
          apply ih.2
          have h := sizeOf_getField_le node "tasks"
          rw [hts] at h
          simp at h
          omega
        | null => rfl
        | bool b => rfl
        | num n => rfl
        | str s => rfl
        | obj fs => rfl
    · intro l fn hs
      cases l with
      | nil => simp [walkChildren, testNodesList]
      | cons n t =>
        unfold walkChildren testNodesList
        rw [List.map_append]
        have hsn : sizeOf n ≤ N := by
          have := one_le_sizeOf_jsonList t
          simp at hs
          omega
        have hst : sizeOf t ≤ N := by
          have := one_le_sizeOf_json n
          simp at hs
          omega
        rw [ih.1 n fn hsn, ih.2 t fn hst]

theorem walkChildren_spec (fn : Option String) (l : List Json) :
    walkChildren fn l = (testNodesList l).map (shapeBRecord fn) :=
  (walk_spec_aux (sizeOf l)).2 l fn le_rfl

theorem shapeBFiles_spec (files : List Json) (hwf : wfB files = true) :
    ∃ l, shapeBFiles files = .ok l ∧ l.length = (shapeBTestNodes files).length ∧
      l.map (fun r => r.state) =
        (shapeBTestNodes files).map (fun n => toUiState (shapeBState n)) := by
  induction files with
  | nil => exact ⟨[], rfl, rfl, rfl⟩
  | cons f rest ih =>
    simp only [wfB, List.all_cons, Bool.and_eq_true] at hwf
    obtain ⟨hwf1, hwfr⟩ := hwf
    obtain ⟨l2, hok2, hlen2, hst2⟩ := ih hwfr
    unfold wfBFile at hwf1
    cases har : getField f "tasks" with
    | null =>
      refine ⟨l2, ?_, ?_, ?_⟩
      · simp [shapeBFiles, shapeBFile, har, hok2]
      · simpa [shapeBTestNodes, har] using hlen2
      · simpa [shapeBTestNodes, har] using hst2
    | arr ts =>
      refine ⟨walkChildren (jsFieldOptStr f "name") ts ++ l2, ?_, ?_, ?_⟩
      · simp [shapeBFiles, shapeBFile, har, hok2]
      · rw [List.length_append, walkChildren_spec]
        simp [shapeBTestNodes, har, hlen2]
      · rw [List.map_append, walkChildren_spec, List.map_map, hst2]
        simp only [shapeBTestNodes, List.map_cons, har, List.flatten_cons,
          List.map_append]
        rfl
    | bool b => rw [har] at hwf1; simp at hwf1
    | num n => rw [har] at hwf1; simp at hwf1
    | str s => rw [har] at hwf1; simp at hwf1
    | obj fs => rw [har] at hwf1; simp at hwf1

/-- C5: (shape A) for every report whose `testResults` is an array of
well-formed file entries, `normalize` succeeds and returns exactly one
record per assertion entry, and the record states are, in order, the
`toUiState` images of the raw `state ?? status` values; (shape B) for every
report whose `testResults` is not an array and whose `files` is an array of
well-formed entries, `normalize` succeeds and returns exactly one record
per `type === 'test'` node of the (arbitrarily nested) task trees, with
states the `toUiState` images of the raw `result.state ?? state` values.
Every emitted state is one of the five canonical values by the type of
`UiState`, and `toUiState` is the case-insensitive canonical mapping
(samples in the final conjunct). -/
theorem c5_normalize_leaf_records (report : Json) :
    (∀ files : List Json, getField report "testResults" = Json.arr files →
      wfA files = true →
      ∃ recs, normalizeE report = .ok recs ∧
        recs.length = shapeACount files ∧
        recs.map (fun r => r.state) = (shapeARawStates files).map toUiState) ∧
    (∀ files : List Json,
      asArray (getField report "testResults") = none →
      getField report "files" = Json.arr files →
      wfB files = true →
      ∃ recs, normalizeE report = .ok recs ∧
        recs.length = (shapeBTestNodes files).length ∧
        recs.map (fun r => r.state) =
          (shapeBTestNodes files).map (fun n => toUiState (shapeBState n))) ∧
    (toUiState (Json.str "PASSED") = .pass ∧ toUiState (Json.str "pass") = .pass ∧
     toUiState (Json.str "Passed") = .pass ∧ toUiState (Json.str "FAILED") = .fail ∧
     toUiState (Json.str "fail") = .fail ∧ toUiState (Json.str "Skipped") = .skip ∧
     toUiState (Json.str "SKIP") = .skip ∧ toUiState (Json.str "TODO") = .todo ∧
     toUiState (Json.str "broken") = .unknown ∧ toUiState Json.null = .unknown) := by
  refine ⟨?_, ?_, by decide⟩
  · intro files h hwf
    have ht : report.truthy = true := truthy_of_getField_arr _ _ _ h
    obtain ⟨l, hok, hlen, hst⟩ := shapeAFiles_spec files hwf
    refine ⟨l, ?_, hlen, hst⟩
    have ha : asArray (getField report "testResults") = some files := by
      rw [h, asArray]
    simp [normalizeE, ht, ha, hok]
  · intro files h1 h2 hwf
    have ht : report.truthy = true := truthy_of_getField_arr _ _ _ h2
    obtain ⟨l, hok, hlen, hst⟩ := shapeBFiles_spec files hwf
    refine ⟨l, ?_, hlen, hst⟩
    have ha : asArray (getField report "files") = some files := by
      rw [h2, asArray]
    simp [normalizeE, ht, h1, ha, hok]

/-- Shape-A file list of the C5 witness: two assertions in one file, one
using `status`/`title` (older reporter) and one using `state`/`fullName`
with failure messages. -/
def filesA5 : List Json :=
  [.obj [("name", .str "tests.spec.ts"),
         ("assertionResults", .arr
           [.obj [("title", .str "t1"), ("status", .str "PASSED")],
            .obj [("fullName", .str "t2"), ("state", .str "failed"),
                  ("failureMessages", .arr [.str "boom", .str "bam"])]])]]

/-- The C5 shape-A witness report. -/
def reportA5 : Json := .obj [("testResults", .arr filesA5)]

/-- Shape-B file list of the C5 witness: one file whose task tree nests a
test inside a suite, plus a top-level test. -/
def filesB5 : List Json :=
  [.obj [("name", .str "tests.spec.ts"),
         ("tasks", .arr
           [.obj [("type", .str "suite"),
                  ("tasks", .arr
                    [.obj [("type", .str "test"), ("name", .str "deep"),
                           ("result", .obj [("state", .str "fail")])]])],
            .obj [("type", .str "test"), ("name", .str "top"),
                  ("state", .str "skip")]])]]

/-- The C5 shape-B witness report. -/
def reportB5 : Json := .obj [("files", .arr filesB5)]

/-- C5 witness: both witness reports normalize with one record per leaf and
canonically mapped states. -/
theorem c5_normalize_leaf_records_w :
    (∃ recs, normalizeE reportA5 = .ok recs ∧
      recs.length = shapeACount filesA5 ∧
      recs.map (fun r => r.state) = (shapeARawStates filesA5).map toUiState) ∧
    (∃ recs, normalizeE reportB5 = .ok recs ∧
      recs.length = (shapeBTestNodes filesB5).length ∧
      recs.map (fun r => r.state) =
        (shapeBTestNodes filesB5).map (fun n => toUiState (shapeBState n))) :=
  ⟨(c5_normalize_leaf_records reportA5).1 filesA5 rfl (by decide),
   (c5_normalize_leaf_records reportB5).2.1 filesB5 rfl rfl (by decide)⟩

end TryLoop
